import Mathlib

/-!
# Timed streaming engine of `rf_uhd_imp.c`

A shallow embedding of the receive engine (`rf_uhd_recv_with_time_multi`), the
transmit engine (`rf_uhd_send_timed`), the asynchronous fault monitor
(`async_thread`), the teardown sequence (`rf_uhd_close`) and the start command
of the receive stream (`rf_uhd_start_rx_stream`) of
`lib/src/phy/rf/rf_uhd_imp.c`.

The UHD device is a black box: a state of some type `σ` together with the
transition functions of the streamer calls.  Everything the hardware can
reach through the pointers it is given (the caller's sample buffers) is part of
`σ`.  Each engine returns, next to the C return value, the list of hardware
calls it issued and the list of fault records it delivered to the registered
error handler, so that properties of the call sequence can be stated.

Machine integers: `int` is an `Int` wrapped by `toInt32`, `uint32_t` and
`size_t` are `Nat` reduced by `toUInt32` and `toSize` at the places where the C
code converts.  `double` values (time fractions, rates, timeouts) are rationals.
-/

namespace RfUhd

/-! ## Machine integers -/

/-- Conversion to the 32-bit `int` (two's complement wrap-around). -/
def toInt32 (x : Int) : Int := (x + 2147483648) % 4294967296 - 2147483648

/-- Conversion to the 32-bit `unsigned int` / `uint32_t`. -/
def toUInt32 (x : Int) : Nat := (x % 4294967296).toNat

/-- Conversion to the 64-bit `size_t`. -/
def toSize (x : Int) : Nat := (x % 18446744073709551616).toNat

/-! ## UHD library types -/

/-- Status code returned by every UHD C API call.  The source tests failure with
`if (error)` and success with `err == UHD_ERROR_NONE`, so zero is success. -/
abbrev uhd_error := Int

/-- The success status. -/
def UHD_ERROR_NONE : uhd_error := 0

/-- Error code stored in a receive metadata object.  Only the three codes the
source names are distinguished; every other code is `OTHER`. -/
inductive uhd_rx_metadata_error_code_t where
  | NONE
  | OVERFLOW
  | LATE_COMMAND
  | OTHER (code : Nat)
  deriving DecidableEq, Repr

/-- Event code of an asynchronous transmit message.  Only the three codes the
source names are distinguished; every other code is `OTHER`. -/
inductive uhd_async_metadata_event_code_t where
  | UNDERFLOW
  | UNDERFLOW_IN_PACKET
  | TIME_ERROR
  | OTHER (code : Nat)
  deriving DecidableEq, Repr

/-- A time-spec: full seconds (`time_t`) and fractional seconds (`double`). -/
structure time_spec_t where
  full_secs : Int
  frac_secs : ℚ
  deriving DecidableEq, Repr

/-- Content of a `uhd_rx_metadata_handle`. -/
structure rx_metadata where
  error_code : uhd_rx_metadata_error_code_t
  time_spec : time_spec_t
  deriving DecidableEq, Repr

/-- Content of a `uhd_tx_metadata_handle`. -/
structure tx_metadata where
  has_time_spec : Bool
  time_spec : time_spec_t
  start_of_burst : Bool
  end_of_burst : Bool
  deriving DecidableEq, Repr

/-! ## Fault records -/

/-- The `type` tag of `srslte_rf_error_t`. -/
inductive srslte_rf_error_type where
  | SRSLTE_RF_ERROR_LATE
  | SRSLTE_RF_ERROR_UNDERFLOW
  | SRSLTE_RF_ERROR_OVERFLOW
  deriving DecidableEq, Repr

/-- The record handed to the error handler; zeroed except for its tag. -/
structure srslte_rf_error_t where
  type : srslte_rf_error_type
  deriving DecidableEq, Repr

/-! ## The session -/

/-- The fields of `rf_uhd_handler_t` the engines read or write.  The device and
streamer handles are the hardware state `σ`, kept beside this record.
`uhd_error_handler` is `true` when a non-NULL callback is registered. -/
structure rf_uhd_handler_t where
  rx_md : rx_metadata
  rx_md_first : rx_metadata
  tx_md : tx_metadata
  tx_nof_samples : Nat
  tx_rate : ℚ
  has_rssi : Bool
  nof_rx_channels : Nat
  uhd_error_handler : Bool
  async_thread_running : Bool
  deriving DecidableEq, Repr

/-- Which receive metadata handle a pointer `md` designates. -/
inductive MdRef where
  | rx_md_first
  | rx_md
  deriving DecidableEq, Repr

/-- Dereference of a metadata pointer. -/
def MdRef.read (h : rf_uhd_handler_t) : MdRef → rx_metadata
  | .rx_md_first => h.rx_md_first
  | .rx_md => h.rx_md

/-- Store through a metadata pointer (what the hardware does to `*md`). -/
def MdRef.write (h : rf_uhd_handler_t) (v : rx_metadata) : MdRef → rf_uhd_handler_t
  | .rx_md_first => { h with rx_md_first := v }
  | .rx_md => { h with rx_md := v }

/-! ## Hardware calls -/

/-- Arguments of one `uhd_rx_streamer_recv` call.  `buffs_ptr[i]` is a pointer
into the caller's buffer of channel `i`; entry `i` of the list is its element
offset, so `&data_c[n]` is the offset `n`. -/
structure RxCall where
  buffs_ptr : List Int
  samps_per_buff : Nat
  md : MdRef
  timeout : ℚ
  one_packet : Bool
  deriving DecidableEq, Repr

/-- What one `uhd_rx_streamer_recv` call hands back: the returned status, the
count stored in `rxd_samples`, the content stored in the metadata object. -/
structure RxReply where
  error : uhd_error
  rxd_samples : Nat
  md : rx_metadata
  deriving DecidableEq, Repr

/-- Arguments of one `uhd_tx_streamer_send` call.  `buff` is the element offset
of `buffs_ptr[0]` in the caller's buffer; slots 1 to 3 are always `zero_mem`.
`md` is the content of `tx_md` at the time of the call. -/
structure TxCall where
  buff : Int
  samps_per_buff : Nat
  md : tx_metadata
  timeout : ℚ
  deriving DecidableEq, Repr

/-- What one `uhd_tx_streamer_send` call hands back: the returned status and
the count stored in `txd_samples`. -/
structure TxReply where
  error : uhd_error
  txd_samples : Nat
  deriving DecidableEq, Repr

/-- What one `uhd_tx_streamer_recv_async_msg` call hands back: the returned
status, the `valid` flag and the event code of the message. -/
structure AsyncReply where
  err : uhd_error
  valid : Bool
  event_code : uhd_async_metadata_event_code_t
  deriving DecidableEq, Repr

/-- The hardware stream provider: a transition function per streamer call. -/
structure Uhd (σ : Type) where
  uhd_rx_streamer_recv : σ → RxCall → σ × RxReply
  uhd_tx_streamer_send : σ → TxCall → σ × TxReply
  uhd_tx_streamer_recv_async_msg : σ → ℚ → σ × AsyncReply

/-! ## Fault reporting -/

/-- Source `log_overflow`: with a handler registered, one call of it with tag
`OVERFLOW`.  `reported` is the list of records delivered so far. -/
def log_overflow (h : rf_uhd_handler_t) (reported : List srslte_rf_error_t) :
    List srslte_rf_error_t :=
  if h.uhd_error_handler then reported ++ [⟨.SRSLTE_RF_ERROR_OVERFLOW⟩] else reported

/-- Source `log_late`. -/
def log_late (h : rf_uhd_handler_t) (reported : List srslte_rf_error_t) :
    List srslte_rf_error_t :=
  if h.uhd_error_handler then reported ++ [⟨.SRSLTE_RF_ERROR_LATE⟩] else reported

/-- Source `log_underflow`. -/
def log_underflow (h : rf_uhd_handler_t) (reported : List srslte_rf_error_t) :
    List srslte_rf_error_t :=
  if h.uhd_error_handler then reported ++ [⟨.SRSLTE_RF_ERROR_UNDERFLOW⟩] else reported

/-! ## Loops -/

/-- Outcome of one pass through a `do ... while` body. -/
inductive Step (β : Type) where
  | abort (st : β)
  | next (st : β)

/-- How a bounded `do ... while` loop ends: `abort` is the early `return -1`,
`finished` is the loop condition turning false, `stalled` is the recursion
budget of the model running out. -/
inductive LoopExit (β : Type) where
  | abort (st : β)
  | finished (st : β)
  | stalled (st : β)

/-- The loop state at the exit. -/
def LoopExit.state {β : Type} : LoopExit β → β
  | .abort st => st
  | .finished st => st
  | .stalled st => st

/-- Whether the loop was left by the early `return -1`, that is, whether a
hardware call reported a failure. -/
def LoopExit.aborted {β : Type} : LoopExit β → Bool
  | .abort _ => true
  | _ => false

/-! ## Receive engine -/

/-- Local variables and accumulated observations of the blocking receive loop. -/
structure RecvLoop (σ : Type) where
  dev : σ
  h : rf_uhd_handler_t
  md : MdRef
  n : Int
  trials : Nat
  calls : List RxCall
  reported : List srslte_rf_error_t

/-- The hardware call one pass of the receive loop prepares: `rx_samples` is
`nsamples` capped by `nsamples - n` (computed in `unsigned int`), and
`buffs_ptr[i] = &data_c[n]` for every receive channel `i`.  The array of the
source has 4 slots (`void *buffs_ptr[4]`) and the list here has
`nof_rx_channels` entries, so the two agree for sessions with at most 4 receive
channels; with more the source writes past the array, which this definition
does not describe.  Statements about the blocking receive therefore assume
`nof_rx_channels ≤ 4`. -/
def recv_call {σ : Type} (nsamples : Nat) (st : RecvLoop σ) : RxCall :=
  let deficit : Nat := toUInt32 ((nsamples : Int) - st.n)
  let rx_samples : Nat := if nsamples > deficit then deficit else nsamples
  let buffs_ptr : List Int := (List.range st.h.nof_rx_channels).map (fun _ => st.n)
  ⟨buffs_ptr, rx_samples, st.md, 1, false⟩

/-- Body of the `do ... while` of `rf_uhd_recv_with_time_multi`. -/
def recv_body {σ : Type} (U : Uhd σ) (nsamples : Nat) (st : RecvLoop σ) :
    Step (RecvLoop σ) :=
  let call := recv_call nsamples st
  let r := U.uhd_rx_streamer_recv st.dev call
  if r.2.error ≠ 0 then
    .abort { st with dev := r.1, calls := st.calls ++ [call] }
  else
    let h1 := st.md.write st.h r.2.md
    let md1 := MdRef.rx_md
    let error_code := (md1.read h1).error_code
    let reported1 :=
      if error_code = .OVERFLOW then log_overflow h1 st.reported
      else if error_code = .LATE_COMMAND then log_late h1 st.reported
      else st.reported
    .next { dev := r.1, h := h1, md := md1, n := toInt32 (st.n + r.2.rxd_samples),
            trials := st.trials + 1, calls := st.calls ++ [call], reported := reported1 }

/-- The `do ... while (n < nsamples && trials < 100)` of the receive engine;
`fuel` bounds the number of passes of the model. -/
def recv_loop {σ : Type} (U : Uhd σ) (nsamples : Nat) :
    Nat → RecvLoop σ → LoopExit (RecvLoop σ)
  | 0, st => .stalled st
  | fuel + 1, st =>
    match recv_body U nsamples st with
    | .abort st1 => .abort st1
    | .next st1 =>
      if toUInt32 st1.n < nsamples ∧ st1.trials < 100 then recv_loop U nsamples fuel st1
      else .finished st1

/-- The loop state on entry to the blocking receive loop: `md` points to
`rx_md_first`, `n = 0`, `trials = 0`. -/
def recv_init {σ : Type} (dev : σ) (h : rf_uhd_handler_t) : RecvLoop σ :=
  ⟨dev, h, .rx_md_first, 0, 0, [], []⟩

/-- What a receive call leaves behind: the C return value, the time stored
through `secs` and `frac_secs` (if stored), the hardware state, the session,
the hardware calls issued and the fault records delivered. -/
structure RecvResult (σ : Type) where
  ret : Int
  time : Option time_spec_t
  dev : σ
  h : rf_uhd_handler_t
  calls : List RxCall
  reported : List srslte_rf_error_t

/-- Source `rf_uhd_recv_with_time_multi`.  `nsamples` is the `uint32_t`
argument; `secs` and `frac_secs` tell whether the two output pointers are
non-NULL.  The buffer of channel `i` is `data[i]`. -/
def rf_uhd_recv_with_time_multi {σ : Type} (U : Uhd σ) (dev : σ) (h : rf_uhd_handler_t)
    (nsamples : Nat) (blocking : Bool) (secs frac_secs : Bool) : RecvResult σ :=
  let md := MdRef.rx_md_first
  if blocking then
    match recv_loop U nsamples 100 (recv_init dev h) with
    | .abort st => ⟨-1, none, st.dev, st.h, st.calls, st.reported⟩
    | .stalled st => ⟨toInt32 nsamples, none, st.dev, st.h, st.calls, st.reported⟩
    | .finished st =>
      let time := if secs ∧ frac_secs then some st.h.rx_md_first.time_spec else none
      ⟨toInt32 nsamples, time, st.dev, st.h, st.calls, st.reported⟩
  else
    let call : RxCall :=
      ⟨(List.range h.nof_rx_channels).map (fun _ => 0), nsamples, md, 0, false⟩
    let r := U.uhd_rx_streamer_recv dev call
    ⟨r.2.error, none, r.1, md.write h r.2.md, [call], []⟩

/-! ## Transmit metadata mutators -/

/-- Modelled from the spec: `uhd_tx_metadata_set_time_spec` of `uhd_c_api` is not
part of the source file; a supplied timestamp "is written into the shared
transmit metadata". -/
def uhd_tx_metadata_set_time_spec (md : tx_metadata) (secs : Int) (frac_secs : ℚ) :
    tx_metadata :=
  { md with has_time_spec := true, time_spec := ⟨secs, frac_secs⟩ }

/-- Modelled from the spec: `uhd_tx_metadata_set_start` of `uhd_c_api` is not part
of the source file; it sets the start-of-burst flag of the metadata. -/
def uhd_tx_metadata_set_start (md : tx_metadata) (is_start_of_burst : Bool) : tx_metadata :=
  { md with start_of_burst := is_start_of_burst }

/-- Modelled from the spec: `uhd_tx_metadata_set_end` of `uhd_c_api` is not part of
the source file; it sets the end-of-burst flag of the metadata. -/
def uhd_tx_metadata_set_end (md : tx_metadata) (is_end_of_burst : Bool) : tx_metadata :=
  { md with end_of_burst := is_end_of_burst }

/-- Modelled from the spec: `uhd_tx_metadata_add_time_spec` of `uhd_c_api` is not
part of the source file; the time-spec advances by the given amount with the
fraction "renormalized into [0,1) by carrying overflow into seconds". -/
def uhd_tx_metadata_add_time_spec (md : tx_metadata) (frac_secs : ℚ) : tx_metadata :=
  let t : ℚ := md.time_spec.frac_secs + frac_secs
  { md with time_spec := ⟨md.time_spec.full_secs + ⌊t⌋, t - ⌊t⌋⟩ }

/-! ## Transmit engine -/

/-- Local variables and accumulated observations of the blocking send loop. -/
structure SendLoop (σ : Type) where
  dev : σ
  h : rf_uhd_handler_t
  n : Int
  trials : Nat
  calls : List TxCall

/-- The hardware call one pass of the send loop prepares.  The start flag is the
caller's on the pass with `n == 0` and false otherwise; when
`nsamples - n > tx_samples` (compared in `size_t`) the chunk is the maximum
burst and the end flag false, otherwise the chunk is `nsamples - n` and the end
flag the caller's. -/
def send_call {σ : Type} (nsamples : Int) (is_start_of_burst is_end_of_burst : Bool)
    (st : SendLoop σ) : TxCall :=
  let tx_samples0 : Nat := st.h.tx_nof_samples
  let md1 :=
    if st.n = 0 then uhd_tx_metadata_set_start st.h.tx_md is_start_of_burst
    else uhd_tx_metadata_set_start st.h.tx_md false
  let remaining : Nat := toSize (toInt32 (nsamples - st.n))
  let tx_samples : Nat := if remaining > tx_samples0 then tx_samples0 else remaining
  let md2 :=
    if remaining > tx_samples0 then uhd_tx_metadata_set_end md1 false
    else uhd_tx_metadata_set_end md1 is_end_of_burst
  ⟨st.n, tx_samples, md2, 3⟩

/-- Body of the `do ... while` of `rf_uhd_send_timed`. -/
def send_body {σ : Type} (U : Uhd σ) (nsamples : Int) (is_start_of_burst is_end_of_burst : Bool)
    (st : SendLoop σ) : Step (SendLoop σ) :=
  let call := send_call nsamples is_start_of_burst is_end_of_burst st
  let r := U.uhd_tx_streamer_send st.dev call
  if r.2.error ≠ 0 then
    .abort { st with dev := r.1, h := { st.h with tx_md := call.md }, calls := st.calls ++ [call] }
  else
    let md3 := uhd_tx_metadata_add_time_spec call.md ((r.2.txd_samples : ℚ) / st.h.tx_rate)
    .next { dev := r.1, h := { st.h with tx_md := md3 }, n := toInt32 (st.n + r.2.txd_samples),
            trials := st.trials + 1, calls := st.calls ++ [call] }

/-- The `do ... while (n < nsamples && trials < 100)` of the transmit engine;
`fuel` bounds the number of passes of the model. -/
def send_loop {σ : Type} (U : Uhd σ) (nsamples : Int) (is_start_of_burst is_end_of_burst : Bool) :
    Nat → SendLoop σ → LoopExit (SendLoop σ)
  | 0, st => .stalled st
  | fuel + 1, st =>
    match send_body U nsamples is_start_of_burst is_end_of_burst st with
    | .abort st1 => .abort st1
    | .next st1 =>
      if st1.n < nsamples ∧ st1.trials < 100 then
        send_loop U nsamples is_start_of_burst is_end_of_burst fuel st1
      else .finished st1

/-- The loop state on entry to the blocking send loop, after the optional
`uhd_tx_metadata_set_time_spec`: `n = 0`, `trials = 0`. -/
def send_init {σ : Type} (dev : σ) (h : rf_uhd_handler_t) (secs : Int) (frac_secs : ℚ)
    (has_time_spec : Bool) : SendLoop σ :=
  let h0 : rf_uhd_handler_t :=
    if has_time_spec then { h with tx_md := uhd_tx_metadata_set_time_spec h.tx_md secs frac_secs }
    else h
  ⟨dev, h0, 0, 0, []⟩

/-- What a send call leaves behind: the C return value, the hardware state, the
session and the hardware calls issued. -/
structure SendResult (σ : Type) where
  ret : Int
  dev : σ
  h : rf_uhd_handler_t
  calls : List TxCall

/-- Source `rf_uhd_send_timed`.  `nsamples` is the `int` argument. -/
def rf_uhd_send_timed {σ : Type} (U : Uhd σ) (dev : σ) (h : rf_uhd_handler_t)
    (nsamples : Int) (secs : Int) (frac_secs : ℚ)
    (has_time_spec blocking is_start_of_burst is_end_of_burst : Bool) : SendResult σ :=
  let h0 : rf_uhd_handler_t :=
    if has_time_spec then { h with tx_md := uhd_tx_metadata_set_time_spec h.tx_md secs frac_secs }
    else h
  if blocking then
    match send_loop U nsamples is_start_of_burst is_end_of_burst 100
        (send_init dev h secs frac_secs has_time_spec) with
    | .abort st => ⟨-1, st.dev, st.h, st.calls⟩
    | .stalled st => ⟨nsamples, st.dev, st.h, st.calls⟩
    | .finished st => ⟨nsamples, st.dev, st.h, st.calls⟩
  else
    let md1 := uhd_tx_metadata_set_start h0.tx_md is_start_of_burst
    let md2 := uhd_tx_metadata_set_end md1 is_end_of_burst
    let call : TxCall := ⟨0, toSize nsamples, md2, 0⟩
    let r := U.uhd_tx_streamer_send dev call
    ⟨r.2.error, r.1, { h0 with tx_md := md2 }, [call]⟩

/-! ## Fault monitor -/

/-- State of the monitor thread: the hardware, the session it shares with the
foreground, and the fault records it has delivered. -/
structure AsyncLoop (σ : Type) where
  dev : σ
  h : rf_uhd_handler_t
  reported : List srslte_rf_error_t

/-- Body of the `while` of `async_thread`: one poll of the asynchronous message
queue and the classification of its result.  `abort` is the `return NULL`. -/
def async_thread_body {σ : Type} (U : Uhd σ) (st : AsyncLoop σ) : Step (AsyncLoop σ) :=
  let r := U.uhd_tx_streamer_recv_async_msg st.dev (1 / 2)
  if r.2.err = UHD_ERROR_NONE then
    if r.2.valid then
      let event_code := r.2.event_code
      if event_code = .UNDERFLOW ∨ event_code = .UNDERFLOW_IN_PACKET then
        .next { st with dev := r.1, reported := log_underflow st.h st.reported }
      else if event_code = .TIME_ERROR then
        .next { st with dev := r.1, reported := log_late st.h st.reported }
      else .next { st with dev := r.1 }
    else .next { st with dev := r.1 }
  else .abort { st with dev := r.1 }

/-- Source `async_thread`, as long as nobody else writes the session:
`while (handler->async_thread_running)` around the body.  The loop of the
source has no bound; `fuel` bounds the passes of the model. -/
def async_thread {σ : Type} (U : Uhd σ) : Nat → AsyncLoop σ → LoopExit (AsyncLoop σ)
  | 0, st => .stalled st
  | fuel + 1, st =>
    if st.h.async_thread_running then
      match async_thread_body U st with
      | .abort st1 => .abort st1
      | .next st1 => async_thread U fuel st1
    else .finished st

/-! ## Teardown -/

/-- The operations `rf_uhd_close` performs on the session. -/
inductive CloseOp where
  | uhd_rx_streamer_issue_stream_cmd_stop
  | uhd_tx_metadata_free_tx_md
  | uhd_rx_metadata_free_rx_md_first
  | uhd_rx_metadata_free_rx_md
  | uhd_meta_range_free_rx_gain_range
  | uhd_tx_streamer_free_tx_stream
  | uhd_rx_streamer_free_rx_stream
  | uhd_sensor_value_free_rssi_value
  | async_thread_running_false
  | pthread_join_async_thread
  | uhd_usrp_free_usrp
  deriving DecidableEq, Repr

/-- Source `rf_uhd_stop_rx_stream`: one stop command on the receive streamer. -/
def rf_uhd_stop_rx_stream : List CloseOp := [.uhd_rx_streamer_issue_stream_cmd_stop]

/-- Source `rf_uhd_close`: the operations in program order. -/
def rf_uhd_close (h : rf_uhd_handler_t) : List CloseOp :=
  rf_uhd_stop_rx_stream ++
  [.uhd_tx_metadata_free_tx_md,
   .uhd_rx_metadata_free_rx_md_first,
   .uhd_rx_metadata_free_rx_md,
   .uhd_meta_range_free_rx_gain_range,
   .uhd_tx_streamer_free_tx_stream,
   .uhd_rx_streamer_free_rx_stream] ++
  (if h.has_rssi then [.uhd_sensor_value_free_rssi_value] else []) ++
  [.async_thread_running_false,
   .pthread_join_async_thread,
   .uhd_usrp_free_usrp]

/-- The operations that release a streamer or a metadata handle. -/
def CloseOp.releasesStreamerOrMetadata : CloseOp → Bool
  | .uhd_tx_metadata_free_tx_md => true
  | .uhd_rx_metadata_free_rx_md_first => true
  | .uhd_rx_metadata_free_rx_md => true
  | .uhd_tx_streamer_free_tx_stream => true
  | .uhd_rx_streamer_free_rx_stream => true
  | _ => false

/-! ## Start of the receive stream -/

/-- The stream modes the source uses. -/
inductive uhd_stream_mode_t where
  | UHD_STREAM_MODE_START_CONTINUOUS
  | UHD_STREAM_MODE_STOP_CONTINUOUS
  deriving DecidableEq, Repr

/-- The fields of `uhd_stream_cmd_t` the source sets. -/
structure uhd_stream_cmd_t where
  stream_mode : uhd_stream_mode_t
  stream_now : Bool
  time_spec_full_secs : Int
  time_spec_frac_secs : ℚ
  deriving DecidableEq, Repr

/-- Source `rf_uhd_start_rx_stream`: the stream command it issues, given the
reading `now` of the device clock (`uhd_usrp_get_time_now`).  Half a second is
added to the fraction, and when the fraction is then `> 1` one second moves
from it into the full seconds.  The `double` fraction is a rational here, which
is exact wherever the addition does not round, as at the reading one half. -/
def rf_uhd_start_rx_stream (now : time_spec_t) : uhd_stream_cmd_t :=
  let frac_secs : ℚ := now.frac_secs + 1 / 2
  if frac_secs > 1 then
    ⟨.UHD_STREAM_MODE_START_CONTINUOUS, false, now.full_secs + 1, frac_secs - 1⟩
  else
    ⟨.UHD_STREAM_MODE_START_CONTINUOUS, false, now.full_secs, frac_secs⟩

/-! ## Hardware mocks -/

/-- State of the receive mock: how many samples per channel it has produced so
far, and the caller's memory (`mem c j` is element `j` of the buffer of
channel `c`). -/
structure MockRx (α : Type) where
  produced : Nat
  mem : Nat → Int → α

/-- Receive call of a mock that delivers at most `k` samples per call: it
delivers `min k samps_per_buff` samples, the next ones of the stream `src c` of
each channel `c` it was given a pointer for, written from that pointer on, and
stores `stamp p` in the metadata object, `p` being the index of the first sample
delivered.  It never fails. -/
def mockRecv {α : Type} (src : Nat → Nat → α) (stamp : Nat → rx_metadata) (k : Nat)
    (s : MockRx α) (c : RxCall) : MockRx α × RxReply :=
  let d := min k c.samps_per_buff
  (⟨s.produced + d,
    fun ch j =>
      match c.buffs_ptr[ch]? with
      | some off =>
        if off ≤ j ∧ j < off + d then src ch (s.produced + (j - off).toNat) else s.mem ch j
      | none => s.mem ch j⟩,
   ⟨UHD_ERROR_NONE, d, stamp s.produced⟩)

/-- The mock as a hardware stream provider; its transmit side accepts every
chunk in full and its message queue is always empty. -/
def mockUhd {α : Type} (src : Nat → Nat → α) (stamp : Nat → rx_metadata) (k : Nat) :
    Uhd (MockRx α) where
  uhd_rx_streamer_recv := mockRecv src stamp k
  uhd_tx_streamer_send := fun s c => (s, ⟨UHD_ERROR_NONE, c.samps_per_buff⟩)
  uhd_tx_streamer_recv_async_msg := fun s _ => (s, ⟨UHD_ERROR_NONE, false, .OTHER 0⟩)

/-- Hardware whose replies are scripted: the state is the number of calls made
so far, and call number `i` is answered by `rx i`, `tx i` or `msg i`,
whatever was asked. -/
def scriptedUhd (rx : Nat → RxReply) (tx : Nat → TxReply) (msg : Nat → AsyncReply) :
    Uhd Nat where
  uhd_rx_streamer_recv := fun i _ => (i + 1, rx i)
  uhd_tx_streamer_send := fun i _ => (i + 1, tx i)
  uhd_tx_streamer_recv_async_msg := fun i _ => (i + 1, msg i)

/-- Transmit hardware that sends every requested chunk in full. -/
def fullSendUhd : Uhd Unit where
  uhd_rx_streamer_recv := fun s c => (s, ⟨UHD_ERROR_NONE, c.samps_per_buff, ⟨.NONE, ⟨0, 0⟩⟩⟩)
  uhd_tx_streamer_send := fun s c => (s, ⟨UHD_ERROR_NONE, c.samps_per_buff⟩)
  uhd_tx_streamer_recv_async_msg := fun s _ => (s, ⟨UHD_ERROR_NONE, false, .OTHER 0⟩)

/-- Hardware that never fails and never transfers a sample. -/
def idleUhd : Uhd Unit where
  uhd_rx_streamer_recv := fun s _ => (s, ⟨UHD_ERROR_NONE, 0, ⟨.NONE, ⟨0, 0⟩⟩⟩)
  uhd_tx_streamer_send := fun s _ => (s, ⟨UHD_ERROR_NONE, 0⟩)
  uhd_tx_streamer_recv_async_msg := fun s _ => (s, ⟨UHD_ERROR_NONE, false, .OTHER 0⟩)

/-- Hardware that succeeds on every call and transfers 5 samples each time. -/
def shortUhd : Uhd Nat :=
  scriptedUhd (fun _ => ⟨UHD_ERROR_NONE, 5, ⟨.NONE, ⟨0, 0⟩⟩⟩) (fun _ => ⟨UHD_ERROR_NONE, 5⟩)
    (fun _ => ⟨UHD_ERROR_NONE, false, .OTHER 0⟩)

/-- Hardware whose streamer calls all fail with status 30 (`UHD_ERROR_IO` in the
UHD library, whose failure codes are all positive). -/
def failingUhd : Uhd Nat :=
  scriptedUhd (fun _ => ⟨30, 0, ⟨.NONE, ⟨0, 0⟩⟩⟩) (fun _ => ⟨30, 0⟩)
    (fun _ => ⟨UHD_ERROR_NONE, false, .OTHER 0⟩)

/-- Hardware that delivers 4 samples per receive call and marks each delivery
with the error code `OVERFLOW` in the metadata object it was given. -/
def overflowUhd : Uhd Nat :=
  scriptedUhd (fun _ => ⟨UHD_ERROR_NONE, 4, ⟨.OVERFLOW, ⟨0, 0⟩⟩⟩) (fun _ => ⟨UHD_ERROR_NONE, 4⟩)
    (fun _ => ⟨UHD_ERROR_NONE, false, .OTHER 0⟩)

/-- Hardware whose message queue always holds a valid underflow event. -/
def underflowUhd : Uhd Nat :=
  scriptedUhd (fun _ => ⟨UHD_ERROR_NONE, 0, ⟨.NONE, ⟨0, 0⟩⟩⟩) (fun _ => ⟨UHD_ERROR_NONE, 0⟩)
    (fun _ => ⟨UHD_ERROR_NONE, true, .UNDERFLOW⟩)

/-- A freshly opened session: metadata objects as `rf_uhd_open_multi` makes
them, `nof_rx_channels` receive channels, maximum transmit burst
`tx_nof_samples`, the given handler registration, monitor running. -/
def openSession (nof_rx_channels tx_nof_samples : Nat) (uhd_error_handler : Bool) :
    rf_uhd_handler_t where
  rx_md := ⟨.NONE, ⟨0, 0⟩⟩
  rx_md_first := ⟨.NONE, ⟨0, 0⟩⟩
  tx_md := ⟨false, ⟨0, 0⟩, false, false⟩
  tx_nof_samples := tx_nof_samples
  tx_rate := 1920000
  has_rssi := false
  nof_rx_channels := nof_rx_channels
  uhd_error_handler := uhd_error_handler
  async_thread_running := true

/-! ## The receive loop, for any hardware -/

theorem recv_body_next {σ : Type} {U : Uhd σ} {nsamples : Nat} {st st1 : RecvLoop σ}
    (hb : recv_body U nsamples st = .next st1) :
    (U.uhd_rx_streamer_recv st.dev (recv_call nsamples st)).2.error = 0 ∧
    st1.dev = (U.uhd_rx_streamer_recv st.dev (recv_call nsamples st)).1 ∧
    st1.h = st.md.write st.h (U.uhd_rx_streamer_recv st.dev (recv_call nsamples st)).2.md ∧
    st1.md = .rx_md ∧
    st1.n = toInt32 (st.n + (U.uhd_rx_streamer_recv st.dev (recv_call nsamples st)).2.rxd_samples) ∧
    st1.trials = st.trials + 1 ∧
    st1.calls = st.calls ++ [recv_call nsamples st] := by
  by_cases he : (U.uhd_rx_streamer_recv st.dev (recv_call nsamples st)).2.error = 0
  · simp only [recv_body, he, ne_eq, not_true_eq_false, if_false] at hb
    injection hb with hb
    subst hb
    exact ⟨he, rfl, rfl, rfl, rfl, rfl, rfl⟩
  · simp only [recv_body, he, ne_eq, not_false_eq_true, if_true] at hb
    cases hb

theorem recv_body_abort {σ : Type} {U : Uhd σ} {nsamples : Nat} {st st1 : RecvLoop σ}
    (hb : recv_body U nsamples st = .abort st1) :
    (U.uhd_rx_streamer_recv st.dev (recv_call nsamples st)).2.error ≠ 0 ∧
    st1.calls = st.calls ++ [recv_call nsamples st] ∧ st1.trials = st.trials := by
  by_cases he : (U.uhd_rx_streamer_recv st.dev (recv_call nsamples st)).2.error = 0
  · simp only [recv_body, he, ne_eq, not_true_eq_false, if_false] at hb
    cases hb
  · simp only [recv_body, he, ne_eq, not_false_eq_true, if_true] at hb
    injection hb with hb
    subst hb
    exact ⟨he, rfl, rfl⟩

theorem recv_loop_finished {σ : Type} {U : Uhd σ} {nsamples : Nat} :
    ∀ (fuel : Nat) (st st1 : RecvLoop σ), recv_loop U nsamples fuel st = .finished st1 →
      ¬ (toUInt32 st1.n < nsamples ∧ st1.trials < 100) ∧
      st.trials < st1.trials ∧
      (st.trials < 100 → st1.trials ≤ 100) ∧
      st1.calls.length + st.trials = st.calls.length + st1.trials ∧
      st1.md = .rx_md ∧
      (st.md = .rx_md → st1.h.rx_md_first = st.h.rx_md_first) ∧
      ∃ new, st1.calls = st.calls ++ recv_call nsamples st :: new ∧ ∀ c ∈ new, c.md = .rx_md := by
  intro fuel
  induction fuel with
  | zero => intro st st1 h; simp [recv_loop] at h
  | succ fuel ih =>
    intro st st1 h
    rw [recv_loop] at h
    split at h
    · cases h
    · rename_i st2 hb
      obtain ⟨-, -, hh, hmd, -, htr, hcalls⟩ := recv_body_next hb
      split at h
      · rename_i hc
        obtain ⟨h1, h2, h3, h4, h5, h6, new, h7, h8⟩ := ih st2 st1 h
        refine ⟨h1, by omega, fun _ => h3 hc.2, ?_, h5, ?_, ?_⟩
        · rw [hcalls, List.length_append] at h4
          simp at h4
          omega
        · intro hm
          rw [h6 hmd, hh, hm]
          rfl
        · refine ⟨recv_call nsamples st2 :: new, ?_, ?_⟩
          · rw [h7, hcalls]; simp
          · intro c hc2
            rcases List.mem_cons.1 hc2 with rfl | hc3
            · simpa [recv_call] using hmd
            · exact h8 c hc3
      · rename_i hc
        injection h with h
        subst h
        refine ⟨hc, by omega, fun _ => by omega, ?_, hmd, ?_, ⟨[], by simpa using hcalls, by simp⟩⟩
        · rw [hcalls]; simp; omega
        · intro hm
          rw [hh, hm]
          rfl

theorem recv_loop_not_stalled {σ : Type} {U : Uhd σ} {nsamples : Nat} :
    ∀ (fuel : Nat) (st st1 : RecvLoop σ), 100 ≤ st.trials + fuel → 0 < fuel →
      recv_loop U nsamples fuel st ≠ .stalled st1 := by
  intro fuel
  induction fuel with
  | zero => intro st st1 _ h; omega
  | succ fuel ih =>
    intro st st1 hf _ h
    rw [recv_loop] at h
    split at h
    · cases h
    · rename_i st2 hb
      obtain ⟨-, -, -, -, -, htr, -⟩ := recv_body_next hb
      split at h
      · rename_i hc
        exact ih st2 st1 (by omega) (by omega) h
      · cases h

theorem recv_loop_abort {σ : Type} {U : Uhd σ} {nsamples : Nat} :
    ∀ (fuel : Nat) (st st1 : RecvLoop σ), recv_loop U nsamples fuel st = .abort st1 →
      ∃ pre last, st1.calls = st.calls ++ pre ++ [last] ∧
        (∀ c ∈ pre, ∃ d, (U.uhd_rx_streamer_recv d c).2.error = 0) ∧
        (∃ d, (U.uhd_rx_streamer_recv d last).2.error ≠ 0) := by
  intro fuel
  induction fuel with
  | zero => intro st st1 h; simp [recv_loop] at h
  | succ fuel ih =>
    intro st st1 h
    rw [recv_loop] at h
    split at h
    · rename_i st2 hb
      injection h with h
      subst h
      obtain ⟨he, hcalls, -⟩ := recv_body_abort hb
      exact ⟨[], _, by simpa using hcalls, by simp, ⟨_, he⟩⟩
    · rename_i st2 hb
      obtain ⟨he, -, -, -, -, -, hcalls⟩ := recv_body_next hb
      split at h
      · obtain ⟨pre, last, h1, h2, h3⟩ := ih st2 st1 h
        refine ⟨recv_call nsamples st :: pre, last, by rw [h1, hcalls]; simp, ?_, h3⟩
        intro c hc
        rcases List.mem_cons.1 hc with rfl | hc
        · exact ⟨_, he⟩
        · exact h2 c hc
      · cases h

/-! ## The send loop, for any hardware -/

theorem send_body_next {σ : Type} {U : Uhd σ} {nsamples : Int} {s e : Bool} {st st1 : SendLoop σ}
    (hb : send_body U nsamples s e st = .next st1) :
    (U.uhd_tx_streamer_send st.dev (send_call nsamples s e st)).2.error = 0 ∧
    st1.dev = (U.uhd_tx_streamer_send st.dev (send_call nsamples s e st)).1 ∧
    st1.h.tx_nof_samples = st.h.tx_nof_samples ∧
    st1.n = toInt32 (st.n + (U.uhd_tx_streamer_send st.dev (send_call nsamples s e st)).2.txd_samples) ∧
    st1.trials = st.trials + 1 ∧
    st1.calls = st.calls ++ [send_call nsamples s e st] := by
  by_cases he : (U.uhd_tx_streamer_send st.dev (send_call nsamples s e st)).2.error = 0
  · simp only [send_body, he, ne_eq, not_true_eq_false, if_false] at hb
    injection hb with hb
    subst hb
    exact ⟨he, rfl, rfl, rfl, rfl, rfl⟩
  · simp only [send_body, he, ne_eq, not_false_eq_true, if_true] at hb
    cases hb

theorem send_body_abort {σ : Type} {U : Uhd σ} {nsamples : Int} {s e : Bool} {st st1 : SendLoop σ}
    (hb : send_body U nsamples s e st = .abort st1) :
    (U.uhd_tx_streamer_send st.dev (send_call nsamples s e st)).2.error ≠ 0 ∧
    st1.calls = st.calls ++ [send_call nsamples s e st] := by
  by_cases he : (U.uhd_tx_streamer_send st.dev (send_call nsamples s e st)).2.error = 0
  · simp only [send_body, he, ne_eq, not_true_eq_false, if_false] at hb
    cases hb
  · simp only [send_body, he, ne_eq, not_false_eq_true, if_true] at hb
    injection hb with hb
    subst hb
    exact ⟨he, rfl⟩

theorem send_loop_finished {σ : Type} {U : Uhd σ} {nsamples : Int} {s e : Bool} :
    ∀ (fuel : Nat) (st st1 : SendLoop σ), send_loop U nsamples s e fuel st = .finished st1 →
      ¬ (st1.n < nsamples ∧ st1.trials < 100) ∧
      st.trials < st1.trials ∧
      (st.trials < 100 → st1.trials ≤ 100) ∧
      st1.calls.length + st.trials = st.calls.length + st1.trials := by
  intro fuel
  induction fuel with
  | zero => intro st st1 h; simp [send_loop] at h
  | succ fuel ih =>
    intro st st1 h
    rw [send_loop] at h
    split at h
    · cases h
    · rename_i st2 hb
      obtain ⟨-, -, -, -, htr, hcalls⟩ := send_body_next hb
      split at h
      · rename_i hc
        obtain ⟨h1, h2, h3, h4⟩ := ih st2 st1 h
        refine ⟨h1, by omega, fun _ => h3 hc.2, ?_⟩
        rw [hcalls, List.length_append] at h4
        simp at h4
        omega
      · rename_i hc
        injection h with h
        subst h
        refine ⟨hc, by omega, fun _ => by omega, ?_⟩
        rw [hcalls]; simp; omega

theorem send_loop_not_stalled {σ : Type} {U : Uhd σ} {nsamples : Int} {s e : Bool} :
    ∀ (fuel : Nat) (st st1 : SendLoop σ), 100 ≤ st.trials + fuel → 0 < fuel →
      send_loop U nsamples s e fuel st ≠ .stalled st1 := by
  intro fuel
  induction fuel with
  | zero => intro st st1 _ h; omega
  | succ fuel ih =>
    intro st st1 hf _ h
    rw [send_loop] at h
    split at h
    · cases h
    · rename_i st2 hb
      obtain ⟨-, -, -, -, htr, -⟩ := send_body_next hb
      split at h
      · rename_i hc
        exact ih st2 st1 (by omega) (by omega) h
      · cases h

/-! ## The send loop on hardware that sends every chunk in full -/

theorem send_call_samps {σ : Type} (nsamples : Int) (s e : Bool) (st : SendLoop σ) :
    (send_call nsamples s e st).samps_per_buff =
      if toSize (toInt32 (nsamples - st.n)) > st.h.tx_nof_samples then st.h.tx_nof_samples
      else toSize (toInt32 (nsamples - st.n)) := rfl

theorem send_call_start {σ : Type} (nsamples : Int) (s e : Bool) (st : SendLoop σ) :
    (send_call nsamples s e st).md.start_of_burst = (decide (st.n = 0) && s) := by
  simp only [send_call]
  split_ifs <;> simp_all [uhd_tx_metadata_set_start, uhd_tx_metadata_set_end]

theorem send_call_end {σ : Type} (nsamples : Int) (s e : Bool) (st : SendLoop σ) :
    (send_call nsamples s e st).md.end_of_burst =
      (!decide (toSize (toInt32 (nsamples - st.n)) > st.h.tx_nof_samples) && e) := by
  simp only [send_call]
  split_ifs <;> simp_all [uhd_tx_metadata_set_start, uhd_tx_metadata_set_end]

theorem send_loop_full {σ : Type} (U : Uhd σ)
    (hfull : ∀ d c, (U.uhd_tx_streamer_send d c).2 = ⟨UHD_ERROR_NONE, c.samps_per_buff⟩)
    (N : Int) (B : Nat) (s e : Bool) (hB : 1 ≤ B) (hN : N ≤ 2147483647) :
    ∀ (fuel : Nat) (st : SendLoop σ), st.h.tx_nof_samples = B → 0 ≤ st.n → st.n < N →
      N - st.n ≤ (fuel : Int) * (B : Int) → st.trials + fuel ≤ 100 →
      ∃ st1 new, send_loop U N s e fuel st = .finished st1 ∧ st1.calls = st.calls ++ new ∧
        (((new.map (fun c => c.samps_per_buff)).sum : Nat) : Int) = N - st.n ∧
        (∀ c ∈ new, c.samps_per_buff ≤ B) ∧
        new.map (fun c => c.md.start_of_burst)
          = (decide (st.n = 0) && s) :: List.replicate (new.length - 1) false ∧
        new.map (fun c => c.md.end_of_burst) = List.replicate (new.length - 1) false ++ [e] ∧
        1 ≤ new.length ∧ ((B : Int) < N - st.n → 2 ≤ new.length) := by
  intro fuel
  induction fuel with
  | zero => intro st _ _ h1 h2 _; simp at h2; omega
  | succ fuel ih =>
    intro st hBst hn0 hnN hfuel htr
    have hmul : ((fuel + 1 : Nat) : Int) * (B : Int) = (fuel : Int) * (B : Int) + B := by
      push_cast; ring
    rw [hmul] at hfuel
    have hfB : 0 ≤ (fuel : Int) * (B : Int) := by positivity
    have hrem : toSize (toInt32 (N - st.n)) = (N - st.n).toNat := by
      simp only [toSize, toInt32]; omega
    have hrep := hfull st.dev (send_call N s e st)
    rw [send_loop]
    cases hb : send_body U N s e st with
    | abort st2 =>
      obtain ⟨he, -⟩ := send_body_abort hb
      rw [hrep] at he
      exact absurd rfl he
    | next st2 =>
      obtain ⟨-, -, hB2, hn2, htr2, hcalls⟩ := send_body_next hb
      rw [hrep] at hn2
      simp only [] at hn2
      have hsamps := send_call_samps N s e st
      have hstart := send_call_start N s e st
      have hend := send_call_end N s e st
      rw [hrem, hBst] at hsamps hend
      simp only []
      by_cases hbig : (N - st.n).toNat > B
      · rw [if_pos hbig] at hsamps
        rw [hsamps] at hn2
        have hn2v : st2.n = st.n + B := by rw [hn2]; simp only [toInt32]; omega
        have hfuel1 : 1 ≤ fuel := by
          rcases Nat.eq_zero_or_pos fuel with h0 | h0
          · subst h0; simp at hfuel; omega
          · exact h0
        have hcond : st2.n < N ∧ st2.trials < 100 := ⟨by omega, by omega⟩
        rw [if_pos hcond]
        obtain ⟨st1, new, h1, h2, h3, h4, h5, h6, h7, -⟩ :=
          ih st2 (by rw [hB2, hBst]) (by omega) (by omega) (by omega) (by omega)
        refine ⟨st1, send_call N s e st :: new, h1, by rw [h2, hcalls]; simp, ?_, ?_, ?_, ?_,
          by simp, fun _ => by simp; omega⟩
        · simp only [List.map_cons, List.sum_cons, Nat.cast_add, h3, hsamps]; omega
        · intro c hc
          rcases List.mem_cons.1 hc with rfl | hc
          · rw [hsamps]
          · exact h4 c hc
        · have hne : ¬ st2.n = 0 := by omega
          simp only [List.map_cons, hstart, h5, hne, decide_False, Bool.false_and,
            List.length_cons, Nat.add_sub_cancel]
          congr 1
          obtain ⟨k, hk⟩ : ∃ k, new.length = k + 1 := ⟨new.length - 1, by omega⟩
          rw [hk]; simp [List.replicate_succ]
        · simp only [List.map_cons, hend, h6, hbig, decide_True, Bool.not_true, Bool.false_and,
            List.length_cons, Nat.add_sub_cancel]
          obtain ⟨k, hk⟩ : ∃ k, new.length = k + 1 := ⟨new.length - 1, by omega⟩
          rw [hk]; simp [List.replicate_succ]
      · rw [if_neg hbig] at hsamps
        rw [hsamps] at hn2
        have hn2v : st2.n = N := by rw [hn2]; simp only [toInt32]; omega
        have hcond : ¬ (st2.n < N ∧ st2.trials < 100) := by omega
        rw [if_neg hcond]
        refine ⟨st2, [send_call N s e st], rfl, hcalls, ?_, ?_, ?_, ?_, by simp,
          fun hlt => by omega⟩
        · simp only [List.map_cons, List.map_nil, List.sum_cons, List.sum_nil, hsamps]; omega
        · intro c hc
          rw [List.mem_singleton.1 hc, hsamps]; omega
        · simp [hstart]
        · simp [hend, hbig]

/-! ## The receive loop on the chunked mock -/

theorem recv_call_eq {σ : Type} (N a C : Nat) (st : RecvLoop σ) (hn : st.n = a) (ha : a ≤ N)
    (hN : N ≤ 2147483647) (hC : st.h.nof_rx_channels = C) :
    recv_call N st = ⟨List.replicate C (a : Int), N - a, st.md, 1, false⟩ := by
  have hdef : toUInt32 ((N : Int) - a) = N - a := by
    simp only [toUInt32]; omega
  simp only [recv_call, hn, hC, hdef, List.map_const', List.length_range]
  congr 1
  split_ifs <;> omega

theorem mockRecv_mem {α : Type} (src : Nat → Nat → α) (stamp : Nat → rx_metadata) (k : Nat)
    (s : MockRx α) (C : Nat) (a : Int) (m : Nat) (md : MdRef) (t : ℚ) (b : Bool) (ch : Nat)
    (j : Int) :
    (mockRecv src stamp k s ⟨List.replicate C a, m, md, t, b⟩).1.mem ch j =
      if ch < C ∧ a ≤ j ∧ j < a + (min k m : Nat) then src ch (s.produced + (j - a).toNat)
      else s.mem ch j := by
  simp only [mockRecv, List.getElem?_replicate]
  by_cases hch : ch < C
  · simp [hch]
  · simp [hch]

theorem write_nof_rx_channels (h : rf_uhd_handler_t) (v : rx_metadata) (md : MdRef) :
    (md.write h v).nof_rx_channels = h.nof_rx_channels := by
  cases md <;> rfl

theorem recv_loop_mock {α : Type} (src : Nat → Nat → α) (stamp : Nat → rx_metadata)
    (k N C : Nat) (hk : 1 ≤ k) (hN : N ≤ 2147483647) :
    ∀ (fuel a : Nat) (st : RecvLoop (MockRx α)), st.n = a → a ≤ N → (a < N ∨ N = 0) →
      N - a ≤ fuel * k → 1 ≤ fuel → st.trials + fuel ≤ 100 → st.h.nof_rx_channels = C →
      ∃ st1 new, recv_loop (mockUhd src stamp k) N fuel st = .finished st1 ∧
        st1.calls = st.calls ++ new ∧
        st1.dev.produced = st.dev.produced + (N - a) ∧
        (∀ (ch : Nat) (j : Int), ch < C → (a : Int) ≤ j → j < N →
          st1.dev.mem ch j = src ch (st.dev.produced + (j - a).toNat)) ∧
        (∀ (ch : Nat) (j : Int), ¬ (ch < C ∧ (a : Int) ≤ j ∧ j < N) →
          st1.dev.mem ch j = st.dev.mem ch j) ∧
        new = ⟨List.replicate C (a : Int), N - a, st.md, 1, false⟩ ::
          (List.range (new.length - 1)).map (fun i =>
            (⟨List.replicate C ((a + (i + 1) * k : Nat) : Int), N - (a + (i + 1) * k), .rx_md, 1,
              false⟩ : RxCall)) ∧
        1 ≤ new.length ∧ ((new.length - 1) * k < N - a ∨ N = 0) ∧ N - a ≤ new.length * k := by
  intro fuel
  induction fuel with
  | zero => intro a st _ _ _ _ h; omega
  | succ fuel ih =>
    intro a st hn ha hpos hfuel _ htr hC
    rw [Nat.succ_mul] at hfuel
    have hcall := recv_call_eq N a C st hn ha hN hC
    rw [recv_loop]
    cases hb : recv_body (mockUhd src stamp k) N st with
    | abort st2 =>
      obtain ⟨he, -, -⟩ := recv_body_abort hb
      exact absurd rfl he
    | next st2 =>
      obtain ⟨-, hdev, hh, hmd, hn2, htr2, hcalls⟩ := recv_body_next hb
      rw [hcall] at hdev hn2 hcalls
      have hC2 : st2.h.nof_rx_channels = C := by rw [hh, write_nof_rx_channels, hC]
      have hprod : st2.dev.produced = st.dev.produced + min k (N - a) := by rw [hdev]; rfl
      have hmem : ∀ (ch : Nat) (j : Int), st2.dev.mem ch j =
          if ch < C ∧ (a : Int) ≤ j ∧ j < a + (min k (N - a) : Nat) then
            src ch (st.dev.produced + (j - a).toNat)
          else st.dev.mem ch j := by
        intro ch j
        rw [hdev]
        exact mockRecv_mem src stamp k st.dev C a (N - a) st.md 1 false ch j
      have hn2v : st2.n = ((a + min k (N - a) : Nat) : Int) := by
        rw [hn2, hn]
        show toInt32 ((a : Int) + (min k (N - a) : Nat)) = _
        simp only [toInt32]; omega
      simp only []
      by_cases hmore : a + k < N
      · have hmin : min k (N - a) = k := by omega
        rw [hmin] at hn2v hprod hmem
        have hfuel1 : 1 ≤ fuel := by
          rcases Nat.eq_zero_or_pos fuel with h0 | h0
          · subst h0; simp at hfuel; omega
          · exact h0
        have hcond : toUInt32 st2.n < N ∧ st2.trials < 100 := by
          refine ⟨?_, by omega⟩
          rw [hn2v]; simp only [toUInt32]; omega
        rw [if_pos hcond]
        obtain ⟨st1, new, h1, h2, h3, h4, h5, h6, h7, h8, h9⟩ :=
          ih (a + k) st2 hn2v (by omega) (Or.inl hmore) (by omega) hfuel1 (by omega) hC2
        obtain ⟨m, hm⟩ : ∃ m, new.length = m + 1 := ⟨new.length - 1, by omega⟩
        rw [hm, Nat.succ_mul] at h9
        rw [hm] at h8 h6
        simp only [Nat.add_sub_cancel] at h8 h6
        refine ⟨st1, (⟨List.replicate C (a : Int), N - a, st.md, 1, false⟩ : RxCall) :: new, h1, by rw [h2, hcalls]; simp, by rw [h3, hprod]; omega,
          ?_, ?_, ?_, by simp, ?_, ?_⟩
        · intro ch j hch hj1 hj2
          by_cases hj3 : ((a + k : Nat) : Int) ≤ j
          · rw [h4 ch j hch hj3 hj2, hprod]
            congr 1
            push_cast at hj3 ⊢
            omega
          · rw [h5 ch j (by tauto), hmem ch j, if_pos ⟨hch, hj1, by push_cast at hj3; omega⟩]
        · intro ch j hj
          rw [h5 ch j (by push_cast; omega), hmem ch j, if_neg (by omega)]
        · simp only [List.length_cons, Nat.add_sub_cancel, hm]
          congr 1
          rw [h6, hmd, List.range_succ_eq_map, List.map_cons, List.map_map]
          congr 1
          · simp
          · apply List.map_congr_left
            intro i _
            simp only [Function.comp]
            have : a + k + (i + 1) * k = a + (i + 1 + 1) * k := by ring
            rw [this]
        · left
          simp only [List.length_cons, Nat.add_sub_cancel, hm, Nat.succ_mul]
          omega
        · simp only [List.length_cons, hm, Nat.succ_mul]
          omega
      · have hmin : a + min k (N - a) = N := by omega
        rw [hmin] at hn2v
        have hcond : ¬ (toUInt32 st2.n < N ∧ st2.trials < 100) := by
          rw [hn2v]; simp only [toUInt32]; omega
        rw [if_neg hcond]
        refine ⟨st2, [(⟨List.replicate C (a : Int), N - a, st.md, 1, false⟩ : RxCall)], rfl, hcalls, by rw [hprod]; omega, ?_, ?_, by simp, by simp, ?_,
          by simp; omega⟩
        · intro ch j hch hj1 hj2
          rw [hmem ch j, if_pos ⟨hch, hj1, by omega⟩]
        · intro ch j hj
          rw [hmem ch j, if_neg (by omega)]
        · simp; omega

theorem send_init_fields {σ : Type} (dev : σ) (h : rf_uhd_handler_t) (secs : Int) (frac_secs : ℚ)
    (has_time_spec : Bool) :
    (send_init dev h secs frac_secs has_time_spec).h.tx_nof_samples = h.tx_nof_samples ∧
    (send_init dev h secs frac_secs has_time_spec).n = 0 ∧
    (send_init dev h secs frac_secs has_time_spec).trials = 0 ∧
    (send_init dev h secs frac_secs has_time_spec).calls = [] := by
  cases has_time_spec <;> exact ⟨rfl, rfl, rfl, rfl⟩

theorem send_timed_full {σ : Type} (U : Uhd σ)
    (hfull : ∀ d c, (U.uhd_tx_streamer_send d c).2 = ⟨UHD_ERROR_NONE, c.samps_per_buff⟩)
    (dev : σ) (h : rf_uhd_handler_t) (nsamples secs : Int) (frac_secs : ℚ)
    (has_time_spec s e : Bool)
    (hgt : (h.tx_nof_samples : Int) < nsamples)
    (hle : nsamples ≤ 100 * (h.tx_nof_samples : Int))
    (hint : nsamples ≤ 2147483647) :
    ∃ new, (rf_uhd_send_timed U dev h nsamples secs frac_secs has_time_spec true s e).calls = new ∧
        (rf_uhd_send_timed U dev h nsamples secs frac_secs has_time_spec true s e).ret = nsamples ∧
        (((new.map (fun c => c.samps_per_buff)).sum : Nat) : Int) = nsamples ∧
        (∀ c ∈ new, c.samps_per_buff ≤ h.tx_nof_samples) ∧
        new.map (fun c => c.md.start_of_burst) = s :: List.replicate (new.length - 1) false ∧
        new.map (fun c => c.md.end_of_burst) = List.replicate (new.length - 1) false ++ [e] ∧
        2 ≤ new.length := by
  obtain ⟨hi1, hi2, hi3, hi4⟩ := send_init_fields dev h secs frac_secs has_time_spec
  obtain ⟨st1, new, h1, h2, h3, h4, h5, h6, -, h8⟩ :=
    send_loop_full U hfull nsamples h.tx_nof_samples s e (by omega) hint 100
      (send_init dev h secs frac_secs has_time_spec) hi1 (by omega) (by omega)
      (by rw [hi2]; push_cast; omega) (by omega)
  rw [hi2] at h3 h5 h8
  rw [hi4] at h2
  refine ⟨new, ?_, ?_, by simpa using h3, h4, by simpa using h5, h6, h8 (by omega)⟩
  · unfold rf_uhd_send_timed
    simp only [if_true]
    rw [h1]
    simpa using h2
  · unfold rf_uhd_send_timed
    simp only [if_true]
    rw [h1]

/-! ## Failure in the blocking loops -/

theorem recv_blocking_abort_ret {σ : Type} (U : Uhd σ) (dev : σ) (h : rf_uhd_handler_t)
    (nsamples : Nat) (secs frac_secs : Bool)
    (hab : (recv_loop U nsamples 100 (recv_init dev h)).aborted = true) :
    (rf_uhd_recv_with_time_multi U dev h nsamples true secs frac_secs).ret = -1 := by
  unfold rf_uhd_recv_with_time_multi
  simp only [if_true]
  cases hrun : recv_loop U nsamples 100 (recv_init dev h) with
  | abort st => rfl
  | stalled st => rw [hrun] at hab; cases hab
  | finished st => rw [hrun] at hab; cases hab

theorem send_blocking_abort_ret {σ : Type} (U : Uhd σ) (dev : σ) (h : rf_uhd_handler_t)
    (nsamples secs : Int) (frac_secs : ℚ) (has_time_spec s e : Bool)
    (hab : (send_loop U nsamples s e 100 (send_init dev h secs frac_secs has_time_spec)).aborted
      = true) :
    (rf_uhd_send_timed U dev h nsamples secs frac_secs has_time_spec true s e).ret = -1 := by
  unfold rf_uhd_send_timed
  simp only [if_true]
  cases hrun : send_loop U nsamples s e 100 (send_init dev h secs frac_secs has_time_spec) with
  | abort st => rfl
  | stalled st => rw [hrun] at hab; cases hab
  | finished st => rw [hrun] at hab; cases hab

/-! ## The claims -/

/-- C1 (amended): for every sample count `N` up to `2^31 - 1`, every channel count
`C` with `1 ≤ C ≤ 4` and every mock delivering `min k requested` samples per call
with `k ≥ 1` and `ceil (N / k) ≤ 100`, a blocking `rf_uhd_recv_with_time_multi`
returns exactly `N`; call number `i` requests the remaining deficit `N - i * k`
with every channel's destination at offset `i * k`, the accumulated count; the
number of calls is the least that covers `N`; the mock has produced exactly `N`
samples, element `j < N` of each channel buffer is the mock's sample number `j`,
and nothing outside the first `N` elements of the `C` buffers is written. -/
theorem blocking_recv_assembles_request {α : Type} (src : Nat → Nat → α)
    (stamp : Nat → rx_metadata) (k N C : Nat) (s0 : MockRx α) (h : rf_uhd_handler_t)
    (secs frac_secs : Bool) (hC1 : 1 ≤ C) (hC4 : C ≤ 4) (hCh : h.nof_rx_channels = C)
    (hk : 1 ≤ k) (hceil : (N + k - 1) / k ≤ 100) (hN : N ≤ 2147483647) :
    let r := rf_uhd_recv_with_time_multi (mockUhd src stamp k) s0 h N true secs frac_secs
    r.ret = N ∧
    r.calls = (List.range r.calls.length).map (fun i =>
      (⟨List.replicate C ((i * k : Nat) : Int), N - i * k,
        if i = 0 then .rx_md_first else .rx_md, 1, false⟩ : RxCall)) ∧
    1 ≤ r.calls.length ∧ ((r.calls.length - 1) * k < N ∨ N = 0) ∧ N ≤ r.calls.length * k ∧
    r.dev.produced = s0.produced + N ∧
    (∀ ch j : Nat, ch < C → j < N → r.dev.mem ch j = src ch (s0.produced + j)) ∧
    (∀ (ch : Nat) (j : Int), ¬ (ch < C ∧ 0 ≤ j ∧ j < N) → r.dev.mem ch j = s0.mem ch j) := by
  have hle : N ≤ 100 * k := by
    by_contra hcon
    have : 101 ≤ (N + k - 1) / k := (Nat.le_div_iff_mul_le (by omega)).2 (by omega)
    omega
  have hchan : 1 ≤ C ∧ C ≤ 4 := ⟨hC1, hC4⟩
  obtain ⟨st1, new, h1, h2, h3, h4, h5, h6, h7, h8, h9⟩ :=
    recv_loop_mock src stamp k N C hk hN 100 0 (recv_init s0 h) rfl (by omega) (by omega)
      (by omega) (by omega) (by simp [recv_init]) hCh
  intro r
  have hr : r = ⟨toInt32 N, if secs ∧ frac_secs then some st1.h.rx_md_first.time_spec else none,
      st1.dev, st1.h, st1.calls, st1.reported⟩ := by
    show rf_uhd_recv_with_time_multi (mockUhd src stamp k) s0 h N true secs frac_secs = _
    unfold rf_uhd_recv_with_time_multi
    simp only [if_true]
    rw [h1]
  have hcalls : r.calls = new := by rw [hr, h2]; simp [recv_init]
  have hdev : r.dev = st1.dev := by rw [hr]
  obtain ⟨m, hm⟩ : ∃ m, new.length = m + 1 := ⟨new.length - 1, by omega⟩
  refine ⟨?_, ?_, ?_, ?_, ?_, ?_, ?_, ?_⟩
  · rw [hr]; simp only [toInt32]; omega
  · rw [hcalls]
    conv_lhs => rw [h6]
    rw [hm, List.range_succ_eq_map, List.map_cons, List.map_map]
    simp only [Nat.add_sub_cancel]
    congr 1
    · simp [recv_init]
    · apply List.map_congr_left
      intro i _
      simp [Function.comp]
  · rw [hcalls]; exact h7
  · rw [hcalls]; simpa using h8
  · rw [hcalls]; simpa using h9
  · rw [hdev, h3]; simp [recv_init]
  · intro ch j hch hj
    rw [hdev, h4 ch j hch (by omega) (by omega)]
    simp [recv_init]
  · intro ch j hj
    rw [hdev, h5 ch j (by simpa using hj)]
    simp [recv_init]

/-- C1, an instance: 10 samples on 2 channels from a mock delivering 3 samples
per call. -/
theorem blocking_recv_assembles_request_witness :
    (1 ≤ 2 ∧ 2 ≤ 4 ∧ (openSession 2 2040 true).nof_rx_channels = 2 ∧ 1 ≤ 3 ∧
      (10 + 3 - 1) / 3 ≤ 100 ∧ 10 ≤ 2147483647) ∧
    (rf_uhd_recv_with_time_multi (mockUhd (fun c j => 100 * c + j) (fun p => ⟨.NONE, ⟨p, 0⟩⟩) 3)
      ⟨0, fun _ _ => 0⟩ (openSession 2 2040 true) 10 true true true).ret = ((10 : Nat) : Int) :=
  ⟨by decide,
    (blocking_recv_assembles_request (fun c j => 100 * c + j) (fun p => ⟨.NONE, ⟨p, 0⟩⟩) 3 10 2
      ⟨0, fun _ _ => 0⟩ (openSession 2 2040 true) true true (by decide) (by decide) rfl
      (by decide) (by decide) (by decide)).1⟩

/-- C1 as stated fails: for `N = 2^31` on one channel with a mock delivering the
whole request in one call (`k = N`, `ceil (N / k) = 1`), the value returned is
`-2147483648`, the `uint32_t` count converted to the `int` return type, not `N`. -/
theorem blocking_recv_large_count_wraps :
    1 ≤ 1 ∧ 1 ≤ 4 ∧ (openSession 1 2040 true).nof_rx_channels = 1 ∧ 1 ≤ 2147483648 ∧
    (2147483648 + 2147483648 - 1) / 2147483648 ≤ 100 ∧
    (rf_uhd_recv_with_time_multi
      (mockUhd (fun _ j => j) (fun p => ⟨.NONE, ⟨p, 0⟩⟩) 2147483648)
      ⟨0, fun _ _ => 0⟩ (openSession 1 2040 true) 2147483648 true false false).ret
        = -2147483648 ∧
    (rf_uhd_recv_with_time_multi
      (mockUhd (fun _ j => j) (fun p => ⟨.NONE, ⟨p, 0⟩⟩) 2147483648)
      ⟨0, fun _ _ => 0⟩ (openSession 1 2040 true) 2147483648 true false false).ret
        ≠ 2147483648 := by
  decide

/-- C2 (amended): for every blocking `rf_uhd_send_timed` call with
`maxBurstSamples < N ≤ 100 * maxBurstSamples` and hardware that sends each
requested chunk in full, the chunk sizes handed to the hardware sum to exactly
`N` and no chunk exceeds `maxBurstSamples`. -/
theorem send_chunks_cover_request {σ : Type} (U : Uhd σ)
    (hfull : ∀ d c, (U.uhd_tx_streamer_send d c).2 = ⟨UHD_ERROR_NONE, c.samps_per_buff⟩)
    (dev : σ) (h : rf_uhd_handler_t) (nsamples secs : Int) (frac_secs : ℚ)
    (has_time_spec s e : Bool)
    (hgt : (h.tx_nof_samples : Int) < nsamples)
    (hle : nsamples ≤ 100 * (h.tx_nof_samples : Int))
    (hint : nsamples ≤ 2147483647) :
    ((((rf_uhd_send_timed U dev h nsamples secs frac_secs has_time_spec true s e).calls.map
        (fun c => c.samps_per_buff)).sum : Nat) : Int) = nsamples ∧
    ∀ c ∈ (rf_uhd_send_timed U dev h nsamples secs frac_secs has_time_spec true s e).calls,
      c.samps_per_buff ≤ h.tx_nof_samples := by
  obtain ⟨new, h1, -, h3, h4, -⟩ :=
    send_timed_full U hfull dev h nsamples secs frac_secs has_time_spec s e hgt hle hint
  rw [h1]
  exact ⟨h3, h4⟩

/-- C2, an instance: 10 samples with a maximum burst of 4. -/
theorem send_chunks_cover_request_witness :
    ((openSession 1 4 true).tx_nof_samples : Int) < 10 ∧
    (10 : Int) ≤ 100 * ((openSession 1 4 true).tx_nof_samples : Int) ∧
    (10 : Int) ≤ 2147483647 ∧
    ((((rf_uhd_send_timed fullSendUhd () (openSession 1 4 true) 10 0 0 false true true true).calls.map
        (fun c => c.samps_per_buff)).sum : Nat) : Int) = 10 :=
  ⟨by decide, by decide, by decide,
    (send_chunks_cover_request fullSendUhd (fun _ _ => rfl) () (openSession 1 4 true) 10 0 0
      false true true (by decide) (by decide) (by decide)).1⟩

set_option maxRecDepth 1000000 in
/-- C2 as stated fails: with a maximum burst of 1 sample and `N = 101`, on
hardware that sends each chunk in full, the loop stops after 100 chunks of one
sample; the chunk sizes sum to 100, not 101, and the call returns 101. -/
theorem send_chunks_stop_after_100 :
    (∀ d c, (fullSendUhd.uhd_tx_streamer_send d c).2 = ⟨UHD_ERROR_NONE, c.samps_per_buff⟩) ∧
    ((openSession 1 1 true).tx_nof_samples : Int) < 101 ∧
    (rf_uhd_send_timed fullSendUhd () (openSession 1 1 true) 101 0 0 false true true true).ret
      = 101 ∧
    (rf_uhd_send_timed fullSendUhd () (openSession 1 1 true) 101 0 0 false true true
      true).calls.length = 100 ∧
    ((rf_uhd_send_timed fullSendUhd () (openSession 1 1 true) 101 0 0 false true true
      true).calls.map (fun c => c.samps_per_buff)).sum = 100 := by
  refine ⟨fun _ _ => rfl, by decide, by decide, by decide, by decide⟩

/-- C3 (amended): for every blocking `rf_uhd_send_timed` call with
`maxBurstSamples < N ≤ 100 * maxBurstSamples` in which the caller requests both
start-of-burst and end-of-burst, on hardware sending each chunk in full, there
are at least two chunks, the start-of-burst flag in the transmit metadata is
true on the first chunk and false on all others, and the end-of-burst flag is
true on the last chunk and false on all others. -/
theorem send_burst_flags_first_and_last {σ : Type} (U : Uhd σ)
    (hfull : ∀ d c, (U.uhd_tx_streamer_send d c).2 = ⟨UHD_ERROR_NONE, c.samps_per_buff⟩)
    (dev : σ) (h : rf_uhd_handler_t) (nsamples secs : Int) (frac_secs : ℚ)
    (has_time_spec : Bool)
    (hgt : (h.tx_nof_samples : Int) < nsamples)
    (hle : nsamples ≤ 100 * (h.tx_nof_samples : Int))
    (hint : nsamples ≤ 2147483647) :
    (rf_uhd_send_timed U dev h nsamples secs frac_secs has_time_spec true true true).calls.map
        (fun c => c.md.start_of_burst)
      = true :: List.replicate
          ((rf_uhd_send_timed U dev h nsamples secs frac_secs has_time_spec true true
            true).calls.length - 1) false ∧
    (rf_uhd_send_timed U dev h nsamples secs frac_secs has_time_spec true true true).calls.map
        (fun c => c.md.end_of_burst)
      = List.replicate
          ((rf_uhd_send_timed U dev h nsamples secs frac_secs has_time_spec true true
            true).calls.length - 1) false ++ [true] ∧
    2 ≤ (rf_uhd_send_timed U dev h nsamples secs frac_secs has_time_spec true true
      true).calls.length := by
  obtain ⟨new, h1, -, -, -, h5, h6, h7⟩ :=
    send_timed_full U hfull dev h nsamples secs frac_secs has_time_spec true true hgt hle hint
  rw [h1]
  exact ⟨h5, h6, h7⟩

/-- C3, an instance: 10 samples with a maximum burst of 4 go out as three
chunks flagged start, middle, end. -/
theorem send_burst_flags_first_and_last_witness :
    ((openSession 1 4 true).tx_nof_samples : Int) < 10 ∧
    (10 : Int) ≤ 100 * ((openSession 1 4 true).tx_nof_samples : Int) ∧
    (10 : Int) ≤ 2147483647 ∧
    2 ≤ (rf_uhd_send_timed fullSendUhd () (openSession 1 4 true) 10 0 0 false true true
      true).calls.length :=
  ⟨by decide, by decide, by decide,
    (send_burst_flags_first_and_last fullSendUhd (fun _ _ => rfl) () (openSession 1 4 true) 10 0 0
      false (by decide) (by decide) (by decide)).2.2⟩

set_option maxRecDepth 1000000 in
/-- C3 as stated fails: with a maximum burst of 1 sample and `N = 101`, both
flags requested, the loop stops after 100 chunks and the end-of-burst flag is
false on every one of them, the last included. -/
theorem send_last_chunk_not_end_after_100 :
    (∀ d c, (fullSendUhd.uhd_tx_streamer_send d c).2 = ⟨UHD_ERROR_NONE, c.samps_per_buff⟩) ∧
    ((openSession 1 1 true).tx_nof_samples : Int) < 101 ∧
    (rf_uhd_send_timed fullSendUhd () (openSession 1 1 true) 101 0 0 false true true
      true).calls.map (fun c => c.md.end_of_burst) = List.replicate 100 false := by
  refine ⟨fun _ _ => rfl, by decide, by decide⟩

/-- C4, the code at the failing input: a non-blocking receive and a non-blocking
send of 10 samples on hardware that succeeds and transfers 5 each issue exactly
one hardware call and return 0, the status of the call, not the count 5. -/
theorem nonblocking_returns_status_not_count :
    (rf_uhd_recv_with_time_multi shortUhd 0 (openSession 1 2040 true) 10 false false
      false).calls.length = 1 ∧
    (rf_uhd_recv_with_time_multi shortUhd 0 (openSession 1 2040 true) 10 false false
      false).ret = 0 ∧
    (rf_uhd_send_timed shortUhd 0 (openSession 1 2040 true) 10 0 0 false false true
      true).calls.length = 1 ∧
    (rf_uhd_send_timed shortUhd 0 (openSession 1 2040 true) 10 0 0 false false true
      true).ret = 0 := by
  decide

/-- C5 (amended): for every blocking receive and every blocking send in which
no hardware sub-call reports a transport failure and the deficit is still
positive when the loop is left, the engine has issued exactly 100 sub-calls and
returns the requested `nsamples` converted to its `int` return type, not the
accumulated count: `nsamples` itself for every send and for every receive with
`nsamples ≤ 2^31 - 1`.  The receive is on a session with at most 4 receive
channels, the size of `buffs_ptr`. -/
theorem retry_exhaustion_returns_requested {σ : Type} (U : Uhd σ) (dev : σ)
    (h : rf_uhd_handler_t) :
    (∀ (nsamples : Nat) (secs frac_secs : Bool),
      h.nof_rx_channels ≤ 4 →
      (recv_loop U nsamples 100 (recv_init dev h)).aborted = false →
      toUInt32 (recv_loop U nsamples 100 (recv_init dev h)).state.n < nsamples →
      (rf_uhd_recv_with_time_multi U dev h nsamples true secs frac_secs).calls.length = 100 ∧
      (rf_uhd_recv_with_time_multi U dev h nsamples true secs frac_secs).ret = toInt32 nsamples ∧
      (nsamples ≤ 2147483647 →
        (rf_uhd_recv_with_time_multi U dev h nsamples true secs frac_secs).ret = nsamples)) ∧
    (∀ (nsamples secs : Int) (frac_secs : ℚ) (has_time_spec s e : Bool),
      (send_loop U nsamples s e 100 (send_init dev h secs frac_secs has_time_spec)).aborted
        = false →
      (send_loop U nsamples s e 100 (send_init dev h secs frac_secs has_time_spec)).state.n
        < nsamples →
      (rf_uhd_send_timed U dev h nsamples secs frac_secs has_time_spec true s e).calls.length
        = 100 ∧
      (rf_uhd_send_timed U dev h nsamples secs frac_secs has_time_spec true s e).ret
        = nsamples) := by
  constructor
  · intro nsamples secs frac_secs _ hab hdef
    have hret : toInt32 (nsamples : Int) = toInt32 nsamples := rfl
    unfold rf_uhd_recv_with_time_multi
    simp only [if_true]
    cases hrun : recv_loop U nsamples 100 (recv_init dev h) with
    | abort st => rw [hrun] at hab; cases hab
    | stalled st => exact absurd hrun (recv_loop_not_stalled 100 _ _ (by simp) (by simp))
    | finished st =>
      rw [hrun] at hdef
      obtain ⟨h1, h2, h3, h4, -⟩ := recv_loop_finished 100 _ _ hrun
      simp only [LoopExit.state] at hdef
      simp only [recv_init, List.length_nil] at h2 h3 h4
      refine ⟨by simp only []; omega, rfl, ?_⟩
      intro hle
      simp only [toInt32]
      omega
  · intro nsamples secs frac_secs has_time_spec s e hab hdef
    unfold rf_uhd_send_timed
    simp only [if_true]
    cases hrun : send_loop U nsamples s e 100 (send_init dev h secs frac_secs has_time_spec) with
    | abort st => rw [hrun] at hab; cases hab
    | stalled st => exact absurd hrun (send_loop_not_stalled 100 _ _ (by simp) (by simp))
    | finished st =>
      rw [hrun] at hdef
      obtain ⟨h1, h2, h3, h4⟩ := send_loop_finished 100 _ _ hrun
      simp only [LoopExit.state] at hdef
      simp only [send_init, List.length_nil] at h2 h3 h4
      refine ⟨by simp only []; omega, rfl⟩

set_option maxRecDepth 1000000 in
/-- C5, an instance: a receive and a send of 5 samples on hardware that never
transfers anything. -/
theorem retry_exhaustion_returns_requested_witness :
    ((openSession 1 2040 true).nof_rx_channels ≤ 4 ∧
      (recv_loop idleUhd 5 100 (recv_init () (openSession 1 2040 true))).aborted = false ∧
      toUInt32 (recv_loop idleUhd 5 100 (recv_init () (openSession 1 2040 true))).state.n < 5 ∧
      (rf_uhd_recv_with_time_multi idleUhd () (openSession 1 2040 true) 5 true false
        false).calls.length = 100 ∧
      (rf_uhd_recv_with_time_multi idleUhd () (openSession 1 2040 true) 5 true false
        false).ret = ((5 : Nat) : Int)) ∧
    ((send_loop idleUhd 5 true true 100
        (send_init () (openSession 1 2040 true) 0 0 false)).aborted = false ∧
      (send_loop idleUhd 5 true true 100
        (send_init () (openSession 1 2040 true) 0 0 false)).state.n < 5 ∧
      (rf_uhd_send_timed idleUhd () (openSession 1 2040 true) 5 0 0 false true true
        true).calls.length = 100 ∧
      (rf_uhd_send_timed idleUhd () (openSession 1 2040 true) 5 0 0 false true true
        true).ret = 5) :=
  ⟨⟨by decide, by decide, by decide,
      ((retry_exhaustion_returns_requested idleUhd () (openSession 1 2040 true)).1 5 false false
        (by decide) (by decide) (by decide)).1,
      ((retry_exhaustion_returns_requested idleUhd () (openSession 1 2040 true)).1 5 false false
        (by decide) (by decide) (by decide)).2.2 (by decide)⟩,
    ⟨by decide, by decide,
      ((retry_exhaustion_returns_requested idleUhd () (openSession 1 2040 true)).2 5 0 0 false
        true true (by decide) (by decide)).1,
      ((retry_exhaustion_returns_requested idleUhd () (openSession 1 2040 true)).2 5 0 0 false
        true true (by decide) (by decide)).2⟩⟩

set_option maxRecDepth 1000000 in
/-- C5 as stated fails: a blocking receive of `2^31` samples on one channel, on
hardware that never fails and never delivers, leaves the loop after 100
sub-calls with the deficit still positive and returns `-2147483648`, not the
requested count. -/
theorem retry_exhaustion_wraps_large_count :
    (openSession 1 2040 true).nof_rx_channels ≤ 4 ∧
    (recv_loop idleUhd 2147483648 100 (recv_init () (openSession 1 2040 true))).aborted = false ∧
    toUInt32 (recv_loop idleUhd 2147483648 100 (recv_init () (openSession 1 2040 true))).state.n
      < 2147483648 ∧
    (rf_uhd_recv_with_time_multi idleUhd () (openSession 1 2040 true) 2147483648 true
      false false).calls.length = 100 ∧
    (rf_uhd_recv_with_time_multi idleUhd () (openSession 1 2040 true) 2147483648 true
      false false).ret = -2147483648 := by
  decide

/-- C6, the code at the failing input: a non-blocking receive and a non-blocking
send on hardware whose call fails with status 30 each issue one hardware call
and return 30, a positive value. -/
theorem nonblocking_failure_returns_status :
    (failingUhd.uhd_rx_streamer_recv 0
      ⟨[0], 10, .rx_md_first, 0, false⟩).2.error ≠ UHD_ERROR_NONE ∧
    (rf_uhd_recv_with_time_multi failingUhd 0 (openSession 1 2040 true) 10 false false
      false).calls.length = 1 ∧
    (rf_uhd_recv_with_time_multi failingUhd 0 (openSession 1 2040 true) 10 false false
      false).ret = 30 ∧
    (rf_uhd_send_timed failingUhd 0 (openSession 1 2040 true) 10 0 0 false false true
      true).calls.length = 1 ∧
    (rf_uhd_send_timed failingUhd 0 (openSession 1 2040 true) 10 0 0 false false true
      true).ret = 30 := by
  decide

/-- C7, the code at the failing input: a blocking receive of 4 samples with a
handler registered, completed by one sub-call that was given `rx_md_first` and
stored the error code `OVERFLOW` there, delivers no fault record: the code read
was that of `rx_md`, which the sub-call did not touch. -/
theorem first_chunk_overflow_not_reported :
    (openSession 1 2040 true).uhd_error_handler = true ∧
    (rf_uhd_recv_with_time_multi overflowUhd 0 (openSession 1 2040 true) 4 true false
      false).calls.map (fun c => c.md) = [.rx_md_first] ∧
    (rf_uhd_recv_with_time_multi overflowUhd 0 (openSession 1 2040 true) 4 true false
      false).h.rx_md_first.error_code = .OVERFLOW ∧
    (rf_uhd_recv_with_time_multi overflowUhd 0 (openSession 1 2040 true) 4 true false
      false).h.rx_md.error_code = .NONE ∧
    (rf_uhd_recv_with_time_multi overflowUhd 0 (openSession 1 2040 true) 4 true false
      false).reported = [] := by
  decide

/-- C8: in every pass of the fault monitor loop with a handler registered in
which the poll succeeds, a valid event with code underflow or
underflow-in-packet invokes the handler exactly once with kind `Underflow`, a
valid event with code time-error invokes it exactly once with kind `Late`, and
every other valid event and every invalid event invokes no handler; in all
three cases the pass ends without leaving the loop and with the session
unchanged. -/
theorem async_thread_body_classifies {σ : Type} (U : Uhd σ) (st : AsyncLoop σ)
    (hreg : st.h.uhd_error_handler = true)
    (hok : (U.uhd_tx_streamer_recv_async_msg st.dev (1 / 2)).2.err = UHD_ERROR_NONE) :
    let r := U.uhd_tx_streamer_recv_async_msg st.dev (1 / 2)
    (r.2.valid = true →
        (r.2.event_code = .UNDERFLOW ∨ r.2.event_code = .UNDERFLOW_IN_PACKET) →
        async_thread_body U st =
          .next ⟨r.1, st.h, st.reported ++ [⟨.SRSLTE_RF_ERROR_UNDERFLOW⟩]⟩) ∧
    (r.2.valid = true → r.2.event_code = .TIME_ERROR →
        async_thread_body U st =
          .next ⟨r.1, st.h, st.reported ++ [⟨.SRSLTE_RF_ERROR_LATE⟩]⟩) ∧
    ((r.2.valid = false ∨
        (r.2.event_code ≠ .UNDERFLOW ∧ r.2.event_code ≠ .UNDERFLOW_IN_PACKET ∧
          r.2.event_code ≠ .TIME_ERROR)) →
        async_thread_body U st = .next ⟨r.1, st.h, st.reported⟩) := by
  unfold async_thread_body
  generalize U.uhd_tx_streamer_recv_async_msg st.dev (1 / 2) = r at hok
  obtain ⟨d, err, valid, code⟩ := r
  simp only at hok
  subst hok
  refine ⟨?_, ?_, ?_⟩
  · rintro hv hc
    simp only at hv hc
    subst hv
    simp [hc, log_underflow, hreg]
  · rintro hv hc
    simp only at hv hc
    subst hv
    subst hc
    simp [log_late, hreg]
  · rintro (hv | ⟨h1, h2, h3⟩)
    · simp only at hv
      subst hv
      simp
    · simp only [ne_eq] at h1 h2 h3
      cases valid <;> simp [h1, h2, h3]

/-- C8, an instance: one pass on a queue holding a valid underflow event. -/
theorem async_thread_body_classifies_witness :
    (openSession 1 2040 true).uhd_error_handler = true ∧
    (underflowUhd.uhd_tx_streamer_recv_async_msg 0 (1 / 2)).2.err = UHD_ERROR_NONE ∧
    async_thread_body underflowUhd ⟨0, openSession 1 2040 true, []⟩ =
      .next ⟨1, openSession 1 2040 true, [⟨.SRSLTE_RF_ERROR_UNDERFLOW⟩]⟩ :=
  ⟨rfl, rfl,
    (async_thread_body_classifies underflowUhd ⟨0, openSession 1 2040 true, []⟩ rfl rfl).1 rfl
      (Or.inl rfl)⟩

/-- C9, the code: `rf_uhd_close` releases the transmit metadata, both receive
metadata objects and both streamers (positions 1, 2, 3, 5 and 6 of its
operations) before it clears `async_thread_running` (position 7) and joins the
monitor thread (position 8). -/
theorem rf_uhd_close_frees_before_join :
    rf_uhd_close (openSession 1 2040 true) =
      [.uhd_rx_streamer_issue_stream_cmd_stop,
       .uhd_tx_metadata_free_tx_md,
       .uhd_rx_metadata_free_rx_md_first,
       .uhd_rx_metadata_free_rx_md,
       .uhd_meta_range_free_rx_gain_range,
       .uhd_tx_streamer_free_tx_stream,
       .uhd_rx_streamer_free_rx_stream,
       .async_thread_running_false,
       .pthread_join_async_thread,
       .uhd_usrp_free_usrp] ∧
    (rf_uhd_close (openSession 1 2040 true)).indexOf .uhd_tx_streamer_free_tx_stream <
      (rf_uhd_close (openSession 1 2040 true)).indexOf .async_thread_running_false ∧
    ((rf_uhd_close (openSession 1 2040 true)).filter
      CloseOp.releasesStreamerOrMetadata).all (fun op =>
        decide ((rf_uhd_close (openSession 1 2040 true)).indexOf op <
          (rf_uhd_close (openSession 1 2040 true)).indexOf .pthread_join_async_thread)) = true := by
  decide

/-- C10: for every blocking receive (on a session with at most 4 receive
channels, the size of `buffs_ptr`) that completes without transport failure and
with a timestamp requested, the first hardware sub-call is issued with the
metadata object `rx_md_first` and every later sub-call with the shared object
`rx_md`, and the timestamp reported to the caller is the time-spec the first
sub-call stored, however many sub-calls followed. -/
theorem recv_timestamp_is_first_chunk {σ : Type} (U : Uhd σ) (dev : σ) (h : rf_uhd_handler_t)
    (nsamples : Nat) (hC4 : h.nof_rx_channels ≤ 4)
    (hok : (recv_loop U nsamples 100 (recv_init dev h)).aborted = false) :
    ∃ rest,
      (rf_uhd_recv_with_time_multi U dev h nsamples true true true).calls
        = recv_call nsamples (recv_init dev h) :: rest ∧
      (recv_call nsamples (recv_init dev h)).md = .rx_md_first ∧
      (∀ c ∈ rest, c.md = .rx_md) ∧
      (rf_uhd_recv_with_time_multi U dev h nsamples true true true).time
        = some (U.uhd_rx_streamer_recv dev (recv_call nsamples (recv_init dev h))).2.md.time_spec := by
  have hchan : h.nof_rx_channels ≤ 4 := hC4
  unfold rf_uhd_recv_with_time_multi
  simp only [if_true]
  cases hrun : recv_loop U nsamples 100 (recv_init dev h) with
  | abort st => rw [hrun] at hok; cases hok
  | stalled st => exact absurd hrun (recv_loop_not_stalled 100 _ _ (by simp) (by simp))
  | finished st =>
    have hrun2 := hrun
    rw [recv_loop] at hrun2
    split at hrun2
    · cases hrun2
    · rename_i st2 hb
      obtain ⟨-, -, hh, hmd, -, -, hcalls⟩ := recv_body_next hb
      have hfirst : st2.h.rx_md_first
          = (U.uhd_rx_streamer_recv dev (recv_call nsamples (recv_init dev h))).2.md := by
        rw [hh]; rfl
      split at hrun2
      · obtain ⟨-, -, -, -, -, h6, new, h7, h8⟩ := recv_loop_finished 99 _ _ hrun2
        refine ⟨recv_call nsamples st2 :: new, ?_, rfl, ?_, ?_⟩
        · simp only []
          rw [h7, hcalls]
          simp [recv_init]
        · intro c hc
          rcases List.mem_cons.1 hc with rfl | hc
          · simpa [recv_call] using hmd
          · exact h8 c hc
        · simp only [and_self, if_true]
          rw [h6 hmd, hfirst]
      · injection hrun2 with hrun2
        subst hrun2
        refine ⟨[], ?_, rfl, by simp, ?_⟩
        · simp only []
          rw [hcalls]
          simp [recv_init]
        · simp only [and_self, if_true]
          rw [hfirst]

/-- C10, an instance: 10 samples in chunks of 3 from a mock that stamps each
delivery with the index of its first sample, starting at sample 7. -/
theorem recv_timestamp_is_first_chunk_witness :
    (openSession 2 2040 true).nof_rx_channels ≤ 4 ∧
    (recv_loop (mockUhd (fun c j => 100 * c + j) (fun p => ⟨.NONE, ⟨p, 0⟩⟩) 3) 10 100
      (recv_init ⟨7, fun _ _ => 0⟩ (openSession 2 2040 true))).aborted = false ∧
    (rf_uhd_recv_with_time_multi (mockUhd (fun c j => 100 * c + j) (fun p => ⟨.NONE, ⟨p, 0⟩⟩) 3)
      ⟨7, fun _ _ => 0⟩ (openSession 2 2040 true) 10 true true true).time = some ⟨7, 0⟩ :=
  ⟨by decide, by decide, by
    obtain ⟨rest, -, -, -, ht⟩ :=
      recv_timestamp_is_first_chunk (mockUhd (fun c j => 100 * c + j) (fun p => ⟨.NONE, ⟨p, 0⟩⟩) 3)
        ⟨7, fun _ _ => 0⟩ (openSession 2 2040 true) 10 (by decide) (by decide)
    exact ht⟩

/-! ## The start time of the receive stream, in exact arithmetic -/

theorem start_rx_stream_sum (now : time_spec_t) :
    ((rf_uhd_start_rx_stream now).time_spec_full_secs : ℚ)
        + (rf_uhd_start_rx_stream now).time_spec_frac_secs
      = (now.full_secs : ℚ) + now.frac_secs + 1 / 2 := by
  unfold rf_uhd_start_rx_stream
  simp only []
  split_ifs
  · push_cast; ring
  · ring

theorem start_rx_stream_normalized_off_half (now : time_spec_t) (h0 : 0 ≤ now.frac_secs)
    (h1 : now.frac_secs < 1) (hne : now.frac_secs ≠ 1 / 2) :
    0 ≤ (rf_uhd_start_rx_stream now).time_spec_frac_secs ∧
    (rf_uhd_start_rx_stream now).time_spec_frac_secs < 1 := by
  unfold rf_uhd_start_rx_stream
  simp only []
  split_ifs with hgt
  · constructor <;> simp only [] <;> linarith
  · have hle : now.frac_secs + 1 / 2 ≤ 1 := not_lt.1 hgt
    have hlt : now.frac_secs + 1 / 2 < 1 := by
      rcases lt_or_eq_of_le hle with h | h
      · exact h
      · exact absurd (by linarith) hne
    constructor <;> simp only [] <;> linarith

/-! ## The send loop under hardware that never sends more than requested -/

theorem send_call_inside {σ : Type} (N : Int) (s e : Bool) (st : SendLoop σ)
    (hN : N ≤ 2147483647) (hn0 : 0 ≤ st.n) (hnN : st.n ≤ N) :
    (send_call N s e st).buff = st.n ∧
    ((send_call N s e st).samps_per_buff : Int) ≤ N - st.n := by
  refine ⟨rfl, ?_⟩
  have hrem : toSize (toInt32 (N - st.n)) = (N - st.n).toNat := by
    simp only [toSize, toInt32]; omega
  rw [send_call_samps, hrem]
  split_ifs <;> omega

theorem send_loop_inside {σ : Type} (U : Uhd σ)
    (hhw : ∀ d c, (U.uhd_tx_streamer_send d c).2.txd_samples ≤ c.samps_per_buff)
    (N : Int) (s e : Bool) (hN : N ≤ 2147483647) :
    ∀ (fuel : Nat) (st : SendLoop σ), 0 ≤ st.n → st.n ≤ N →
      (∀ c ∈ st.calls, 0 ≤ c.buff ∧ c.buff ≤ N ∧ c.buff + (c.samps_per_buff : Int) ≤ N) →
      ∀ c ∈ (send_loop U N s e fuel st).state.calls,
        0 ≤ c.buff ∧ c.buff ≤ N ∧ c.buff + (c.samps_per_buff : Int) ≤ N := by
  intro fuel
  induction fuel with
  | zero => intro st _ _ hold; simpa [send_loop, LoopExit.state] using hold
  | succ fuel ih =>
    intro st hn0 hnN hold
    obtain ⟨hbuff, hsamps⟩ := send_call_inside N s e st hN hn0 hnN
    have hcall : ∀ c ∈ st.calls ++ [send_call N s e st],
        0 ≤ c.buff ∧ c.buff ≤ N ∧ c.buff + (c.samps_per_buff : Int) ≤ N := by
      intro c hc
      rcases List.mem_append.1 hc with hc | hc
      · exact hold c hc
      · rw [List.mem_singleton.1 hc, hbuff]
        exact ⟨hn0, hnN, by omega⟩
    rw [send_loop]
    cases hb : send_body U N s e st with
    | abort st2 =>
      obtain ⟨-, hcalls⟩ := send_body_abort hb
      simp only [LoopExit.state]
      rw [hcalls]
      exact hcall
    | next st2 =>
      obtain ⟨-, -, -, hn2, -, hcalls⟩ := send_body_next hb
      have htxd := hhw st.dev (send_call N s e st)
      have hn2v : st2.n = st.n + (U.uhd_tx_streamer_send st.dev (send_call N s e st)).2.txd_samples := by
        rw [hn2]; simp only [toInt32]; omega
      simp only []
      split_ifs
      · exact ih st2 (by omega) (by omega) (by rw [hcalls]; exact hcall)
      · simp only [LoopExit.state]
        rw [hcalls]
        exact hcall

/-! ## The claims on the start time and on the send offsets -/

/-- C11, the code at the failing input: for the clock reading 7 seconds plus
exactly half a second, whose fraction lies in [0,1), `rf_uhd_start_rx_stream`
computes the fraction 1 and leaves the seconds at 7: the sum `1/2 + 1/2` is not
`> 1`, so nothing is carried and the fraction is outside [0,1). -/
theorem start_rx_stream_half_second_not_carried :
    (0 : ℚ) ≤ (⟨7, 1 / 2⟩ : time_spec_t).frac_secs ∧
    (⟨7, 1 / 2⟩ : time_spec_t).frac_secs < 1 ∧
    (rf_uhd_start_rx_stream ⟨7, 1 / 2⟩).time_spec_full_secs = 7 ∧
    (rf_uhd_start_rx_stream ⟨7, 1 / 2⟩).time_spec_frac_secs = 1 ∧
    ¬ (rf_uhd_start_rx_stream ⟨7, 1 / 2⟩).time_spec_frac_secs < 1 := by
  have hcmd : rf_uhd_start_rx_stream ⟨7, 1 / 2⟩
      = ⟨.UHD_STREAM_MODE_START_CONTINUOUS, false, 7, 1⟩ := by
    unfold rf_uhd_start_rx_stream
    norm_num
  rw [hcmd]
  norm_num

/-- C12: for every blocking `rf_uhd_send_timed` call with `nsamples ≥ 0` and
hardware that never reports more samples sent than were requested, every
hardware sub-call is issued at an offset `n` with `0 ≤ n ≤ nsamples` and asks for
a chunk with `n + chunk ≤ nsamples`, so every chunk lies inside the caller's
buffer of `nsamples` elements. -/
theorem send_chunks_inside_buffer {σ : Type} (U : Uhd σ)
    (hhw : ∀ d c, (U.uhd_tx_streamer_send d c).2.txd_samples ≤ c.samps_per_buff)
    (dev : σ) (h : rf_uhd_handler_t) (nsamples secs : Int) (frac_secs : ℚ)
    (has_time_spec s e : Bool) (h0 : 0 ≤ nsamples) (hint : nsamples ≤ 2147483647) :
    ∀ c ∈ (rf_uhd_send_timed U dev h nsamples secs frac_secs has_time_spec true s e).calls,
      0 ≤ c.buff ∧ c.buff ≤ nsamples ∧ c.buff + (c.samps_per_buff : Int) ≤ nsamples := by
  obtain ⟨-, hi2, -, hi4⟩ := send_init_fields dev h secs frac_secs has_time_spec
  have hloop := send_loop_inside U hhw nsamples s e hint 100
    (send_init dev h secs frac_secs has_time_spec) (by omega) (by omega)
    (by rw [hi4]; simp)
  have hcalls : (rf_uhd_send_timed U dev h nsamples secs frac_secs has_time_spec true s e).calls
      = (send_loop U nsamples s e 100
          (send_init dev h secs frac_secs has_time_spec)).state.calls := by
    unfold rf_uhd_send_timed
    simp only [if_true]
    cases send_loop U nsamples s e 100 (send_init dev h secs frac_secs has_time_spec) <;> rfl
  rw [hcalls]
  exact hloop

/-- C12, an instance: 10 samples with a maximum burst of 4 on hardware that
sends each chunk in full. -/
theorem send_chunks_inside_buffer_witness :
    (∀ d c, (fullSendUhd.uhd_tx_streamer_send d c).2.txd_samples ≤ c.samps_per_buff) ∧
    (0 : Int) ≤ 10 ∧ (10 : Int) ≤ 2147483647 ∧
    ∀ c ∈ (rf_uhd_send_timed fullSendUhd () (openSession 1 4 true) 10 0 0 false true true
        true).calls,
      0 ≤ c.buff ∧ c.buff ≤ 10 ∧ c.buff + (c.samps_per_buff : Int) ≤ 10 :=
  ⟨fun _ _ => Nat.le_refl _, by decide, by decide,
    send_chunks_inside_buffer fullSendUhd (fun _ _ => Nat.le_refl _) () (openSession 1 4 true)
      10 0 0 false true true (by decide) (by decide)⟩

end RfUhd
